import Mathlib

/-!
Shallow embedding of the core data model of the GW2 farming tracker
(`src/gw2_tracker/models.py`) together with proofs of the specified
properties: inventory arithmetic, serialization round-trips, item
valuation, report gains, and the application state machine.

Conventions of the embedding:
* Python `dict[str, int]` values are embedded as association lists
  `List (String × Int)`; a genuine Python dict always has distinct keys,
  which is recorded by the well-formedness predicate `Inventory.wf`.
* Python dict equality (`==`) ignores entry order; it is embedded as the
  relation `Inventory.dictEq` (same lookup result for every key).
* Monetary amounts returned by the remote API (vendor values and trading
  post offers) are non-negative integers and are embedded as `Nat`.
* `pendulum.DateTime` is external to the repository; it is embedded as an
  opaque wrapper of its ISO-8601 rendering, so that `isoformat` followed
  by `pendulum.parse` is the identity, which is the behaviour that the
  repository test `test_snapshot_serialization` relies on.
-/

namespace GW2

/-- Item identifiers (`ItemID = NewType("ItemID", str)`). -/
abbrev ItemID := String

/-- API keys (`APIKey = NewType("APIKey", str)`). -/
abbrev APIKey := String

/-- Embedding of `pendulum.DateTime` by its ISO-8601 rendering; the
datetime itself is an external collaborator of the repository. -/
structure DateTime where
  iso : String
deriving DecidableEq

/-- Embedding of `datetime.isoformat()`. -/
def DateTime.isoformat (d : DateTime) : String := d.iso

/-- Embedding of `pendulum.parser.parse` applied to an ISO-8601 string:
recovers the instant the string renders. -/
def DateTime.parse (s : String) : DateTime := ⟨s⟩

/-- Type `Inventory`: immutable mapping from string ID to non-zero amounts
(`models.py` line 69). The underlying dict is an association list. -/
structure Inventory where
  content : List (ItemID × Int)
deriving DecidableEq

/-- Embedding of the `Inventory` constructor: `__attrs_post_init__`
(`models.py` lines 127-133) replaces `content` with
`{k: v for k, v in self.content.items() if v}`, stripping zero values. -/
def Inventory.ofDict (d : List (ItemID × Int)) : Inventory :=
  ⟨d.filter (fun p => p.2 != 0)⟩

/-- Keys of the underlying dict, in insertion order. -/
def Inventory.keysList (inv : Inventory) : List ItemID :=
  inv.content.map Prod.fst

/-- Embedding of `self.get(k, 0)` (dict lookup with default `0`). -/
def Inventory.get (inv : Inventory) (k : ItemID) : Int :=
  (inv.content.lookup k).getD 0

/-- Well-formedness of an embedded inventory: the content is a genuine
Python dict (distinct keys) that went through `__attrs_post_init__`
(no zero values). Every `Inventory` the Python code builds satisfies it. -/
def Inventory.wf (inv : Inventory) : Prop :=
  inv.keysList.Nodup ∧ ∀ p ∈ inv.content, p.2 ≠ 0

instance (inv : Inventory) : Decidable inv.wf := by
  unfold Inventory.wf; infer_instance

/-- Python `==` between two inventories: dict equality, i.e. the same
keys bound to the same values, irrespective of entry order. -/
def Inventory.dictEq (a b : Inventory) : Prop :=
  ∀ k, a.content.lookup k = b.content.lookup k

/-- The key set `self.keys() | other.keys()` used by `__add__` and
`__sub__`. Python iterates this set in an unspecified order; the
embedding fixes the order, which is harmless because dict equality
(`dictEq`) ignores it. -/
def Inventory.unionKeys (a b : Inventory) : List ItemID :=
  (a.keysList ++ b.keysList).dedup

/-- Embedding of `Inventory.__add__` (`models.py` lines 168-176):
`Inventory({k: self.get(k, 0) + other.get(k, 0) for k in self.keys() | other.keys()})`. -/
def Inventory.add (a b : Inventory) : Inventory :=
  Inventory.ofDict ((a.unionKeys b).map (fun k => (k, a.get k + b.get k)))

/-- Embedding of `Inventory.__sub__` (`models.py` lines 178-186). -/
def Inventory.sub (a b : Inventory) : Inventory :=
  Inventory.ofDict ((a.unionKeys b).map (fun k => (k, a.get k - b.get k)))

/-- Embedding of `Inventory()`: the empty inventory (default `factory=dict`). -/
def Inventory.emptyInv : Inventory := ⟨[]⟩

/-- Embedding of `Inventory.to_json` (`models.py` lines 135-138):
returns `dict(self.content)`. -/
def Inventory.to_json (inv : Inventory) : List (ItemID × Int) :=
  inv.content

/-- Embedding of `Inventory.from_json` (`models.py` lines 106-125): the
`isinstance` validation is enforced by the Lean type, after which the
constructor `cls(obj)` runs (stripping zeros). -/
def Inventory.from_json (obj : List (ItemID × Int)) : Inventory :=
  Inventory.ofDict obj

section InventoryLemmas

/-- A key absent from the key list looks up to `none`. -/
theorem lookup_eq_none_of_not_mem_keys {l : List (ItemID × Int)} {k : ItemID}
    (h : k ∉ l.map Prod.fst) : l.lookup k = none := by
  induction l with
  | nil => rfl
  | cons p t ih =>
    simp only [List.map_cons, List.mem_cons, not_or] at h
    have hk : (k == p.1) = false := beq_eq_false_iff_ne.mpr h.1
    simpa [List.lookup, hk] using ih h.2

/-- A successful lookup exhibits a member of the association list. -/
theorem mem_of_lookup_eq_some {l : List (ItemID × Int)} {k : ItemID} {v : Int}
    (h : l.lookup k = some v) : (k, v) ∈ l := by
  induction l with
  | nil => simp [List.lookup] at h
  | cons p t ih =>
    by_cases hk : k = p.1
    · subst hk
      simp only [List.lookup, beq_self_eq_true] at h
      have hv : p.2 = v := by injection h
      subst hv
      exact List.mem_cons.mpr (Or.inl Prod.mk.eta)
    · have hk' : (k == p.1) = false := beq_eq_false_iff_ne.mpr hk
      simp only [List.lookup, hk'] at h
      exact List.mem_cons_of_mem _ (ih h)

/-- Lookup in the graph of a function over a key list. -/
theorem lookup_map_graph (U : List ItemID) (f : ItemID → Int) (k : ItemID) :
    (U.map (fun x => (x, f x))).lookup k
      = if k ∈ U then some (f k) else none := by
  induction U with
  | nil => rfl
  | cons u t ih =>
    by_cases hk : k = u
    · subst hk
      simp [List.lookup]
    · have hk' : (k == u) = false := beq_eq_false_iff_ne.mpr hk
      simp [List.lookup, hk', ih, hk]

/-- Stripping zero entries from a dict with distinct keys does not change
the lookup-with-default-0 view. -/
theorem get_ofDict {l : List (ItemID × Int)}
    (h : (l.map Prod.fst).Nodup) (k : ItemID) :
    (Inventory.ofDict l).get k = (l.lookup k).getD 0 := by
  induction l with
  | nil => rfl
  | cons p t ih =>
    simp only [List.map_cons, List.nodup_cons] at h
    by_cases hk : k = p.1
    · subst hk
      by_cases hv : p.2 = 0
      · have ht : (t.filter (fun q => q.2 != 0)).lookup p.1 = none := by
          apply lookup_eq_none_of_not_mem_keys
          intro hmem
          exact h.1 (by
            rcases List.mem_map.mp hmem with ⟨q, hq, hq1⟩
            exact List.mem_map.mpr ⟨q, List.mem_of_mem_filter hq, hq1⟩)
        simp [Inventory.ofDict, Inventory.get, List.filter, hv, List.lookup, ht]
      · have hv' : (p.2 != 0) = true := bne_iff_ne.mpr hv
        simp [Inventory.ofDict, Inventory.get, List.filter, hv', List.lookup]
    · have hk' : (k == p.1) = false := beq_eq_false_iff_ne.mpr hk
      have := ih h.2
      by_cases hv : (p.2 != 0) = true
      · simpa [Inventory.ofDict, Inventory.get, List.filter, hv, List.lookup, hk']
          using this
      · simpa [Inventory.ofDict, Inventory.get, List.filter, hv, List.lookup, hk']
          using this

/-- The graph of a function over a key list has those keys. -/
theorem map_fst_graph (U : List ItemID) (f : ItemID → Int) :
    ((U.map (fun x => (x, f x))).map Prod.fst) = U := by
  induction U with
  | nil => rfl
  | cons u t ih => simp only [List.map_cons, ih]

/-- Lookup-with-default-0 view of `ofDict` over a graph. -/
theorem get_ofDict_graph {U : List ItemID} (hU : U.Nodup) (f : ItemID → Int)
    (k : ItemID) :
    (Inventory.ofDict (U.map (fun x => (x, f x)))).get k
      = if k ∈ U then f k else 0 := by
  rw [get_ofDict (by rw [map_fst_graph]; exact hU), lookup_map_graph]
  by_cases h : k ∈ U <;> simp [h]

/-- A key outside the key list of an inventory has `get` equal to `0`. -/
theorem get_eq_zero_of_not_mem {a : Inventory} {k : ItemID}
    (h : k ∉ a.keysList) : a.get k = 0 := by
  unfold Inventory.get
  rw [lookup_eq_none_of_not_mem_keys h]
  rfl

/-- Membership in the union key set. -/
theorem mem_unionKeys {a b : Inventory} {k : ItemID} :
    k ∈ a.unionKeys b ↔ k ∈ a.keysList ∨ k ∈ b.keysList := by
  unfold Inventory.unionKeys
  rw [List.mem_dedup, List.mem_append]

/-- The union key set has no duplicates. -/
theorem nodup_unionKeys (a b : Inventory) : (a.unionKeys b).Nodup :=
  List.nodup_dedup _

/-- Addition is pointwise on the lookup-with-default-0 view. -/
theorem get_add (a b : Inventory) (k : ItemID) :
    (a.add b).get k = a.get k + b.get k := by
  unfold Inventory.add
  rw [get_ofDict_graph (nodup_unionKeys a b)]
  by_cases h : k ∈ a.unionKeys b
  · simp [h]
  · rw [if_neg h]
    rw [mem_unionKeys, not_or] at h
    rw [get_eq_zero_of_not_mem h.1, get_eq_zero_of_not_mem h.2]
    simp

/-- Subtraction is pointwise on the lookup-with-default-0 view. -/
theorem get_sub (a b : Inventory) (k : ItemID) :
    (a.sub b).get k = a.get k - b.get k := by
  unfold Inventory.sub
  rw [get_ofDict_graph (nodup_unionKeys a b)]
  by_cases h : k ∈ a.unionKeys b
  · simp [h]
  · rw [if_neg h]
    rw [mem_unionKeys, not_or] at h
    rw [get_eq_zero_of_not_mem h.1, get_eq_zero_of_not_mem h.2]
    simp

/-- The result of `ofDict` on a dict with distinct keys is well-formed. -/
theorem wf_ofDict {l : List (ItemID × Int)}
    (h : (l.map Prod.fst).Nodup) : (Inventory.ofDict l).wf := by
  constructor
  · have : (l.filter (fun p => p.2 != 0)).map Prod.fst |>.Sublist (l.map Prod.fst) :=
      (List.filter_sublist l).map Prod.fst
    exact h.sublist this
  · intro p hp
    have := List.of_mem_filter hp
    exact bne_iff_ne.mp this

/-- The result of `__add__` is well-formed. -/
theorem wf_add (a b : Inventory) : (a.add b).wf := by
  apply wf_ofDict
  rw [map_fst_graph]
  exact nodup_unionKeys a b

/-- The result of `__sub__` is well-formed. -/
theorem wf_sub (a b : Inventory) : (a.sub b).wf := by
  apply wf_ofDict
  rw [map_fst_graph]
  exact nodup_unionKeys a b

/-- For well-formed inventories, agreement of the lookup-with-default-0
views is exactly Python dict equality. -/
theorem dictEq_of_get_eq {a b : Inventory} (ha : a.wf) (hb : b.wf)
    (h : ∀ k, a.get k = b.get k) : a.dictEq b := by
  intro k
  have hk := h k
  unfold Inventory.get at hk
  cases h₁ : a.content.lookup k with
  | none =>
    cases h₂ : b.content.lookup k with
    | none => rfl
    | some w =>
      exfalso
      have hw : w ≠ 0 := hb.2 _ (mem_of_lookup_eq_some h₂)
      rw [h₁, h₂] at hk
      simp at hk
      exact hw hk.symm
  | some v =>
    cases h₂ : b.content.lookup k with
    | none =>
      exfalso
      have hv : v ≠ 0 := ha.2 _ (mem_of_lookup_eq_some h₁)
      rw [h₁, h₂] at hk
      simp at hk
      exact hv hk
    | some w =>
      rw [h₁, h₂] at hk
      simp at hk
      rw [hk]

end InventoryLemmas

/-- C6: for all Inventories `A` and `B`, `(A + B) - B == A` and
`A + Inventory() == A`, where `+`/`-` are key-wise over the union of the
key sets with missing keys treated as `0`, zero-valued results are
stripped by the constructor, and `==` is Python dict equality. -/
theorem C6_add_sub_cancel (A B : Inventory) (hA : A.wf) (hB : B.wf) :
    ((A.add B).sub B).dictEq A ∧ (A.add Inventory.emptyInv).dictEq A := by
  constructor
  · apply dictEq_of_get_eq (wf_sub _ _) hA
    intro k
    rw [get_sub, get_add]
    omega
  · apply dictEq_of_get_eq (wf_add _ _) hA
    intro k
    rw [get_add]
    have h0 : Inventory.emptyInv.get k = 0 := rfl
    rw [h0]
    simp

/-- Witness for C6 at concrete inventories. -/
theorem C6_add_sub_cancel_witness :
    ((Inventory.ofDict [("a", 5)]).wf ∧ (Inventory.ofDict [("a", -5), ("b", 2)]).wf)
    ∧ ((((Inventory.ofDict [("a", 5)]).add
          (Inventory.ofDict [("a", -5), ("b", 2)])).sub
          (Inventory.ofDict [("a", -5), ("b", 2)])).dictEq (Inventory.ofDict [("a", 5)])
        ∧ ((Inventory.ofDict [("a", 5)]).add Inventory.emptyInv).dictEq
            (Inventory.ofDict [("a", 5)])) :=
  ⟨⟨by decide, by decide⟩,
   C6_add_sub_cancel (Inventory.ofDict [("a", 5)])
     (Inventory.ofDict [("a", -5), ("b", 2)]) (by decide) (by decide)⟩

/-- C7: every Inventory, however constructed — direct construction,
deserialization, addition or subtraction — maps each of its keys to a
non-zero amount, because the constructor strips zero-valued entries. -/
theorem C7_values_nonzero :
    (∀ (l : List (ItemID × Int)) (p : ItemID × Int),
        p ∈ (Inventory.ofDict l).content → p.2 ≠ 0)
    ∧ (∀ (a b : Inventory) (p : ItemID × Int), p ∈ (a.add b).content → p.2 ≠ 0)
    ∧ (∀ (a b : Inventory) (p : ItemID × Int), p ∈ (a.sub b).content → p.2 ≠ 0)
    ∧ (∀ (obj : List (ItemID × Int)) (p : ItemID × Int),
        p ∈ (Inventory.from_json obj).content → p.2 ≠ 0) := by
  have base : ∀ (l : List (ItemID × Int)) (p : ItemID × Int),
      p ∈ (Inventory.ofDict l).content → p.2 ≠ 0 := by
    intro l p hp
    have hp' : p ∈ l.filter (fun q => q.2 != 0) := hp
    simp only [List.mem_filter, bne_iff_ne] at hp'
    exact hp'.2
  refine ⟨base, ?_, ?_, ?_⟩
  · intro a b p hp
    exact base _ p hp
  · intro a b p hp
    exact base _ p hp
  · intro obj p hp
    exact base _ p hp

/-- Witness for C7 at a concrete constructed inventory. -/
theorem C7_values_nonzero_witness :
    ("a", (2 : Int)) ∈ (Inventory.ofDict [("a", 2), ("b", 0)]).content
    ∧ (2 : Int) ≠ 0 :=
  ⟨by decide, C7_values_nonzero.1 [("a", 2), ("b", 0)] ("a", 2) (by decide)⟩

/-- Type `Snapshot`: immutable account state at a given datetime
(`models.py` lines 218-228). The `filepath`-free serializable fields. -/
structure Snapshot where
  key : APIKey
  inventory : Inventory
  wallet : Inventory
  datetime : DateTime
  name : Option String
deriving DecidableEq

/-- JSON image of a `Snapshot` produced by `Snapshot.to_json`
(`models.py` lines 275-279): every field jsonized, the datetime replaced
by its isoformat rendering. -/
structure SnapshotJson where
  key : String
  inventory : List (ItemID × Int)
  wallet : List (ItemID × Int)
  datetime : String
  name : Option String
deriving DecidableEq

/-- Embedding of `Snapshot.to_json` (`models.py` lines 275-279). -/
def Snapshot.to_json (s : Snapshot) : SnapshotJson :=
  ⟨s.key, s.inventory.to_json, s.wallet.to_json, s.datetime.isoformat, s.name⟩

/-- Embedding of `Snapshot.from_json` (`models.py` lines 253-273):
`unjsonize` deserializes `inventory` and `wallet` through
`Inventory.from_json`, the key is rewrapped, the datetime parsed. -/
def Snapshot.from_json (obj : SnapshotJson) : Snapshot :=
  ⟨obj.key, Inventory.from_json obj.inventory, Inventory.from_json obj.wallet,
   DateTime.parse obj.datetime, obj.name⟩

/-- Type `ItemDetail` (`models.py` lines 302-429): per-item data kept in
reports. Monetary fields are the non-negative coin amounts served by the
GW2 API. -/
structure ItemDetail where
  id : ItemID
  name : String
  vendor_value : Nat
  highest_buy : Option Nat
  lowest_sell : Option Nat
  icon_path : Option String := none
deriving DecidableEq

/-- Fee constant `BLACK_LION_FEE = 0.15`. The application `int((1 - 0.15) * x)`
is embedded exactly: `(1 - 0.15) * x = 17 * x / 20` in exact arithmetic,
and truncation on a non-negative value is floor, hence `Nat` division.
(The CPython float computation agrees with the exact value for every
price the API can serve.) -/
def blackLionNet (x : Nat) : Nat := 17 * x / 20

/-- Embedding of `ItemDetail.value_black_lion_fast` (`models.py` lines
393-397): fee-reduced highest buy offer, absent without a buy offer. -/
def ItemDetail.value_black_lion_fast (d : ItemDetail) : Option Nat :=
  d.highest_buy.map blackLionNet

/-- Embedding of `ItemDetail.value_fast` (`models.py` lines 399-402):
`max(self.value_black_lion_fast or 0, self.vendor_value)`. -/
def ItemDetail.value_fast (d : ItemDetail) : Nat :=
  max (d.value_black_lion_fast.getD 0) d.vendor_value

/-- Embedding of `ItemDetail.value_black_lion_slow` (`models.py` lines
404-411): fee-reduced lowest sell offer, falling back to the fee-reduced
highest buy offer, absent when neither offer exists. -/
def ItemDetail.value_black_lion_slow (d : ItemDetail) : Option Nat :=
  match d.lowest_sell with
  | some s => some (blackLionNet s)
  | none => d.highest_buy.map blackLionNet

/-- Embedding of `ItemDetail.value_slow` (`models.py` lines 413-419):
`max(self.value_black_lion_slow or 0, self.vendor_value)`. -/
def ItemDetail.value_slow (d : ItemDetail) : Nat :=
  max (d.value_black_lion_slow.getD 0) d.vendor_value

/-- Embedding of `ItemDetail.value_black_lion` (`models.py` lines 421-424). -/
def ItemDetail.value_black_lion (d : ItemDetail) : Option Nat :=
  d.value_black_lion_slow

/-- Embedding of `ItemDetail.value` (`models.py` lines 426-429): the
canonical per-unit value used in reporting. -/
def ItemDetail.value (d : ItemDetail) : Nat :=
  d.value_slow

/-- Stated from the spec, for comparison with the code: the per-unit
value is `max(slow_liquid_value, vendor_sell_value)` where
`slow_liquid_value = floor((1 - 0.15) * lowest_sell_offer)` when a sell
offer exists, else `floor((1 - 0.15) * highest_buy_offer)` when a buy
offer exists, else `0`. -/
def specSlowValue (vendor_value : Nat) (highest_buy lowest_sell : Option Nat) :
    Nat :=
  max
    (match lowest_sell with
     | some s => 17 * s / 20
     | none =>
       match highest_buy with
       | some b => 17 * b / 20
       | none => 0)
    vendor_value

/-- C1: the canonical per-unit value (`value`, equal to `value_slow`) is
`max(slow_liquid_value, vendor_sell_value)` with the fallback
chain for the slow liquid value; in particular it is `102` for
`highest_buy=100, lowest_sell=120, vendor_value=10`, `85` once the sell
offer is absent, and `50` when both offers are absent and
`vendor_value=50`. -/
theorem C1_canonical_value :
    (∀ d : ItemDetail,
        d.value = specSlowValue d.vendor_value d.highest_buy d.lowest_sell
        ∧ d.value = d.value_slow)
    ∧ (ItemDetail.mk "1" "x" 10 (some 100) (some 120) none).value = 102
    ∧ (ItemDetail.mk "2" "x" 10 (some 100) none none).value = 85
    ∧ (ItemDetail.mk "3" "x" 50 none none none).value = 50 := by
  refine ⟨?_, by decide, by decide, by decide⟩
  intro d
  refine ⟨?_, rfl⟩
  unfold ItemDetail.value ItemDetail.value_slow ItemDetail.value_black_lion_slow
    specSlowValue blackLionNet
  cases d.lowest_sell with
  | some s => rfl
  | none =>
    cases d.highest_buy with
    | some b => rfl
    | none => rfl

/-- JSON image of an `ItemDetail` produced by `ItemDetail.to_json`
(`models.py` lines 370-372): all fields except `icon_path`, which is
listed in `ignore`. -/
structure ItemDetailJson where
  id : ItemID
  name : String
  vendor_value : Nat
  highest_buy : Option Nat
  lowest_sell : Option Nat
deriving DecidableEq

/-- Embedding of `ItemDetail.to_json` (`models.py` lines 370-372):
`utils.jsonize(self, ignore=["icon_path"])`. -/
def ItemDetail.to_json (d : ItemDetail) : ItemDetailJson :=
  ⟨d.id, d.name, d.vendor_value, d.highest_buy, d.lowest_sell⟩

/-- Embedding of `ItemDetail.from_json` (`models.py` lines 350-368):
`unjsonize` with `ignore=["icon_path"]`, so the constructed instance
gets the default `icon_path = None`. -/
def ItemDetail.from_json (obj : ItemDetailJson) : ItemDetail :=
  ⟨obj.id, obj.name, obj.vendor_value, obj.highest_buy, obj.lowest_sell, none⟩

/-- Type `Report` (`models.py` lines 433-553): a computed gain report.
`item_details` is a dict from item id to detail, embedded as an
association list. -/
structure Report where
  start_date : DateTime
  end_date : DateTime
  inv_diff : Inventory
  wallet_diff : Inventory
  item_details : List (ItemID × ItemDetail)
deriving DecidableEq

/-- Constant `Report._COIN_ID = ItemID("1")`: the wallet identifier of coins. -/
def COIN_ID : ItemID := "1"

/-- The invariant `Report.__attrs_post_init__` enforces (`models.py`
lines 454-459): `self.inv_diff.keys() <= self.item_details.keys()`. -/
def Report.integrity (r : Report) : Prop :=
  ∀ k ∈ r.inv_diff.keysList, k ∈ r.item_details.map Prod.fst

instance (r : Report) : Decidable r.integrity := by
  unfold Report.integrity; infer_instance

/-- Embedding of the `Report` constructor together with
`__attrs_post_init__` (`models.py` lines 454-459): construction raises
`ValueError` when some key of `inv_diff` has no entry in
`item_details`. -/
def Report.make (start_date end_date : DateTime) (inv_diff wallet_diff : Inventory)
    (item_details : List (ItemID × ItemDetail)) : Except String Report :=
  if ∀ k ∈ inv_diff.keysList, k ∈ item_details.map Prod.fst then
    .ok ⟨start_date, end_date, inv_diff, wallet_diff, item_details⟩
  else
    .error ("no item details for ids: "
      ++ String.intercalate ", "
        (inv_diff.keysList.filter (fun k => !(item_details.map Prod.fst).contains k)))

/-- Embedding of `Report.coins` (`models.py` lines 535-541):
`self.wallet_diff.get(self._COIN_ID, 0)`. -/
def Report.coins (r : Report) : Int :=
  r.wallet_diff.get COIN_ID

/-- Embedding of `Report.item_gains` (`models.py` lines 543-548):
`sum(count * self.item_details[id_].value for id_, count in self.inv_diff.items())`.
The Python indexing raises `KeyError` on a missing id; the construction
invariant (`Report.integrity`) guarantees every lookup succeeds, so the
`getD 0` default of the embedding is never reached on a constructed
report. -/
def Report.item_gains (r : Report) : Int :=
  (r.inv_diff.content.map
    (fun p => p.2 * ((r.item_details.lookup p.1).map
      (fun d => (d.value : Int))).getD 0)).sum

/-- Embedding of `Report.total_gains` (`models.py` lines 550-553):
`self.coins + self.item_gains`. -/
def Report.total_gains (r : Report) : Int :=
  r.coins + r.item_gains

/-- C2: on a well-formed report, `item_gains` is the sum over the
`(item_id, count)` pairs of the inventory delta of `count` times the
canonical value of `item_details[item_id]` (for any table `dv` realizing
those lookups), `coins` is the wallet delta entry of the coin currency
id `"1"` defaulting to `0` when absent, and `total_gains = coins +
item_gains`. -/
theorem C2_report_gains (r : Report) (dv : ItemID → ItemDetail)
    (hdv : ∀ k ∈ r.inv_diff.keysList, r.item_details.lookup k = some (dv k)) :
    r.item_gains
      = (r.inv_diff.content.map (fun p => p.2 * ((dv p.1).value : Int))).sum
    ∧ r.coins = (r.wallet_diff.content.lookup COIN_ID).getD 0
    ∧ r.total_gains = r.coins + r.item_gains := by
  refine ⟨?_, rfl, rfl⟩
  unfold Report.item_gains
  congr 1
  apply List.map_congr_left
  intro p hp
  have hk : p.1 ∈ r.inv_diff.keysList := List.mem_map.mpr ⟨p, hp, rfl⟩
  rw [hdv p.1 hk]
  rfl

/-- JSON image of a `Report` produced by `Report.to_json` (`models.py`
lines 509-514): datetimes replaced by their isoformat rendering, nested
values jsonized recursively. -/
structure ReportJson where
  start_date : String
  end_date : String
  inv_diff : List (ItemID × Int)
  wallet_diff : List (ItemID × Int)
  item_details : List (ItemID × ItemDetailJson)
deriving DecidableEq

/-- Embedding of `Report.to_json` (`models.py` lines 509-514). -/
def Report.to_json (r : Report) : ReportJson :=
  ⟨r.start_date.isoformat, r.end_date.isoformat, r.inv_diff.to_json,
   r.wallet_diff.to_json, r.item_details.map (fun p => (p.1, p.2.to_json))⟩

/-- Embedding of `Report.from_json` (`models.py` lines 484-507):
datetimes parsed, inventories deserialized by `unjsonize`, the
`item_details` values deserialized through `ItemDetail.from_json`,
then the checked constructor runs (it may raise `ValueError`). -/
def Report.from_json (obj : ReportJson) : Except String Report :=
  Report.make (DateTime.parse obj.start_date) (DateTime.parse obj.end_date)
    (Inventory.from_json obj.inv_diff) (Inventory.from_json obj.wallet_diff)
    (obj.item_details.map (fun p => (p.1, ItemDetail.from_json p.2)))

/-- An item detail with its `icon_path` cleared, all else unchanged. -/
def ItemDetail.clearIcon (d : ItemDetail) : ItemDetail :=
  ⟨d.id, d.name, d.vendor_value, d.highest_buy, d.lowest_sell, none⟩

/-- The same report with the `icon_path` of every item detail cleared;
this is what a serialization round-trip of a report produces, because
`icon_path` is excluded from the JSON form in both directions. -/
def Report.stripIcons (r : Report) : Report :=
  { r with item_details :=
      r.item_details.map (fun p => (p.1, p.2.clearIcon)) }

instance {ε α : Type} [DecidableEq ε] [DecidableEq α] :
    DecidableEq (Except ε α) := fun x y =>
  match x, y with
  | .error a, .error b =>
    if h : a = b then .isTrue (by rw [h])
    else .isFalse (by intro hc; injection hc; contradiction)
  | .error _, .ok _ => .isFalse (by intro hc; cases hc)
  | .ok _, .error _ => .isFalse (by intro hc; cases hc)
  | .ok a, .ok b =>
    if h : a = b then .isTrue (by rw [h])
    else .isFalse (by intro hc; injection hc; contradiction)

/-- Enum `States` (`models.py` lines 597-613): the strictly ordered lifecycle
states of the application. -/
inductive States where
  | STARTED
  | KEY
  | SNAP_START
  | SNAP_END
  | REPORT
deriving DecidableEq

/-- The `IntEnum` value of each state; `States` instances compare by
this value. -/
def States.val : States → Nat
  | .STARTED => 0
  | .KEY => 1
  | .SNAP_START => 2
  | .SNAP_END => 3
  | .REPORT => 4

/-- Type `Model` (`models.py` lines 616-627): the complete application state.
The `filepath` field and the asynchronous save through a `trio_guest`
are persistence side effects outside the state-transition semantics and
are not part of the embedded state. -/
structure Model where
  state : States
  current_key : Option APIKey
  start_snapshot : Option Snapshot
  end_snapshot : Option Snapshot
  report : Option Report
deriving DecidableEq

/-- Embedding of `Model.set_key` (`models.py` lines 662-680): only when
the key differs from the current one does the model change (state to
`KEY`, key replaced, snapshots and report cleared). -/
def Model.set_key (m : Model) (key : APIKey) : Model :=
  if some key ≠ m.current_key then
    { m with state := States.KEY, current_key := some key,
             start_snapshot := none, end_snapshot := none, report := none }
  else
    m

/-- Embedding of `Model.set_start_snapshot` (`models.py` lines 682-709):
the returned pair is the post-state and the raised error, if any. The
`ValueError`s are raised before any field is assigned, so the post-state
on error is the unchanged model. The embedded messages elide the Python
f-string interpolation of the two keys. -/
def Model.set_start_snapshot (m : Model) (s : Snapshot) :
    Model × Option String :=
  if m.state.val < States.KEY.val then
    (m, some "Cannot set starting snapshot without a key")
  else if m.current_key ≠ some s.key then
    (m, some "Current key does not match snapshot key")
  else
    ({ m with start_snapshot := some s, state := States.SNAP_START,
              end_snapshot := none, report := none }, none)

/-- Embedding of `Model.set_end_snapshot` (`models.py` lines 711-736):
same conventions as `Model.set_start_snapshot`. On success only
`end_snapshot` and `state` are assigned. -/
def Model.set_end_snapshot (m : Model) (s : Snapshot) :
    Model × Option String :=
  if m.state.val < States.SNAP_START.val then
    (m, some "Cannot set later snapshot without a starting snapshot")
  else if m.current_key ≠ some s.key then
    (m, some "Current key does not match snapshot key")
  else
    ({ m with end_snapshot := some s, state := States.SNAP_END }, none)

/-- Embedding of `Model.set_report` (`models.py` lines 738-756). -/
def Model.set_report (m : Model) (r : Report) : Model × Option String :=
  if m.state.val < States.SNAP_END.val then
    (m, some "Cannot set report without an end snapshot")
  else
    ({ m with report := some r, state := States.REPORT }, none)

/-- A concrete model holding a key, in a late lifecycle state. -/
def mLate : Model := ⟨States.SNAP_END, some "k", none, none, none⟩

/-- Counterexample to C3: re-setting the key already current does not
move the lifecycle state to `KEY`; the model is returned unchanged from
state `SNAP_END`. -/
theorem C3_counterexample :
    mLate.set_key "k" = mLate ∧ (mLate.set_key "k").state ≠ States.KEY := by
  constructor
  · rfl
  · intro h
    cases h

/-- C3 (amended): `set_key` always succeeds; when the given key differs
from the current key the state becomes `KEY` and the key is stored while
the start snapshot, end snapshot and report are cleared; when the given
key equals the current key the model is left entirely unchanged (its
state included). -/
theorem C3_set_key (m : Model) (key : APIKey) :
    (some key ≠ m.current_key →
      m.set_key key = ⟨States.KEY, some key, none, none, none⟩)
    ∧ (some key = m.current_key → m.set_key key = m) := by
  constructor
  · intro h
    unfold Model.set_key
    rw [if_pos h]
  · intro h
    unfold Model.set_key
    rw [if_neg (by simp [h])]

/-- Witness for C3 at concrete inputs: a differing key resets the model,
the current key leaves it unchanged. -/
theorem C3_set_key_witness :
    (some "a" ≠ mLate.current_key
      ∧ mLate.set_key "a" = ⟨States.KEY, some "a", none, none, none⟩)
    ∧ (some "k" = mLate.current_key ∧ mLate.set_key "k" = mLate) :=
  ⟨⟨by decide, (C3_set_key mLate "a").1 (by decide)⟩,
   ⟨by decide, (C3_set_key mLate "k").2 (by decide)⟩⟩

/-- C4: `set_start_snapshot` raises exactly when the state is below
`KEY` or the snapshot key differs from the current key; on error the
model is unchanged; on success the snapshot is stored, the state becomes
`SNAP_START`, and the end snapshot and report are cleared. -/
theorem C4_set_start_snapshot (m : Model) (s : Snapshot) :
    ((m.set_start_snapshot s).2.isSome
        ↔ (m.state.val < States.KEY.val ∨ m.current_key ≠ some s.key))
    ∧ ((m.set_start_snapshot s).2.isSome → (m.set_start_snapshot s).1 = m)
    ∧ ((m.set_start_snapshot s).2 = none →
        (m.set_start_snapshot s).1
          = { m with start_snapshot := some s, state := States.SNAP_START,
                     end_snapshot := none, report := none }) := by
  unfold Model.set_start_snapshot
  by_cases h1 : m.state.val < States.KEY.val
  · rw [if_pos h1]
    exact ⟨by simp [h1], fun _ => rfl, by simp⟩
  · rw [if_neg h1]
    by_cases h2 : m.current_key ≠ some s.key
    · rw [if_pos h2]
      exact ⟨by simp [h2], fun _ => rfl, by simp⟩
    · rw [if_neg h2]
      exact ⟨by simp [h1, h2], by simp, fun _ => rfl⟩

/-- Witness for C4 at concrete inputs: the error case from state
`STARTED` (model unchanged) and the success case from state `KEY`. -/
theorem C4_set_start_snapshot_witness :
    ((⟨States.STARTED, none, none, none, none⟩ : Model).set_start_snapshot
        ⟨"k", Inventory.emptyInv, Inventory.emptyInv, ⟨"t"⟩, none⟩).2.isSome
    ∧ ((⟨States.STARTED, none, none, none, none⟩ : Model).set_start_snapshot
        ⟨"k", Inventory.emptyInv, Inventory.emptyInv, ⟨"t"⟩, none⟩).1
        = ⟨States.STARTED, none, none, none, none⟩
    ∧ ((⟨States.KEY, some "k", none, none, none⟩ : Model).set_start_snapshot
        ⟨"k", Inventory.emptyInv, Inventory.emptyInv, ⟨"t"⟩, none⟩).1
        = ⟨States.SNAP_START, some "k",
            some ⟨"k", Inventory.emptyInv, Inventory.emptyInv, ⟨"t"⟩, none⟩,
            none, none⟩ :=
  ⟨by decide,
   (C4_set_start_snapshot ⟨States.STARTED, none, none, none, none⟩
      ⟨"k", Inventory.emptyInv, Inventory.emptyInv, ⟨"t"⟩, none⟩).2.1 (by decide),
   (C4_set_start_snapshot ⟨States.KEY, some "k", none, none, none⟩
      ⟨"k", Inventory.emptyInv, Inventory.emptyInv, ⟨"t"⟩, none⟩).2.2 (by decide)⟩

/-- A concrete report used to exhibit retention of a stale report. -/
def rPlain : Report :=
  ⟨⟨"t0"⟩, ⟨"t1"⟩, Inventory.emptyInv, Inventory.emptyInv, []⟩

/-- C10: from a state at least `SNAP_START` with a matching snapshot
key, `set_end_snapshot` succeeds, stores the snapshot, sets the state to
`SNAP_END`, and leaves every other field — in particular a previously
stored report — unchanged. -/
theorem C10_set_end_snapshot (m : Model) (s : Snapshot)
    (h1 : States.SNAP_START.val ≤ m.state.val)
    (h2 : m.current_key = some s.key) :
    m.set_end_snapshot s
      = ({ m with end_snapshot := some s, state := States.SNAP_END }, none)
    ∧ (m.set_end_snapshot s).1.report = m.report
    ∧ (m.set_end_snapshot s).1.start_snapshot = m.start_snapshot
    ∧ (m.set_end_snapshot s).1.current_key = m.current_key := by
  have hlt : ¬ m.state.val < States.SNAP_START.val := not_lt.mpr h1
  have hkey : ¬ m.current_key ≠ some s.key := by simp [h2]
  unfold Model.set_end_snapshot
  rw [if_neg hlt, if_neg hkey]
  exact ⟨rfl, rfl, rfl, rfl⟩

/-- Witness for C10: a model in state `REPORT` holding a report keeps it
through `set_end_snapshot`, ending in state `SNAP_END` with the stale
report still present. -/
theorem C10_set_end_snapshot_witness :
    (States.SNAP_START.val
        ≤ (⟨States.REPORT, some "k", none, none, some rPlain⟩ : Model).state.val
      ∧ (⟨States.REPORT, some "k", none, none, some rPlain⟩ : Model).current_key
        = some (⟨"k", Inventory.emptyInv, Inventory.emptyInv, ⟨"t"⟩, none⟩ : Snapshot).key)
    ∧ (⟨States.REPORT, some "k", none, none, some rPlain⟩ : Model).set_end_snapshot
        ⟨"k", Inventory.emptyInv, Inventory.emptyInv, ⟨"t"⟩, none⟩
      = (⟨States.SNAP_END, some "k", none,
          some ⟨"k", Inventory.emptyInv, Inventory.emptyInv, ⟨"t"⟩, none⟩,
          some rPlain⟩, none) :=
  ⟨⟨by decide, by decide⟩,
   ((C10_set_end_snapshot ⟨States.REPORT, some "k", none, none, some rPlain⟩
      ⟨"k", Inventory.emptyInv, Inventory.emptyInv, ⟨"t"⟩, none⟩
      (by decide) (by decide)).1)⟩

/-- C8: constructing a `Report` raises exactly when some key of
`inv_diff` has no entry in `item_details`; every constructed report
satisfies the integrity invariant and carries the given fields. -/
theorem C8_report_construction (sd ed : DateTime) (inv w : Inventory)
    (det : List (ItemID × ItemDetail)) :
    ((∃ e, Report.make sd ed inv w det = .error e)
        ↔ ∃ k ∈ inv.keysList, k ∉ det.map Prod.fst)
    ∧ (∀ r, Report.make sd ed inv w det = .ok r →
        r.integrity ∧ r = ⟨sd, ed, inv, w, det⟩) := by
  by_cases h : ∀ k ∈ inv.keysList, k ∈ det.map Prod.fst
  · refine ⟨⟨?_, ?_⟩, ?_⟩
    · rintro ⟨e, he⟩
      rw [Report.make, if_pos h] at he
      cases he
    · rintro ⟨k, hk, hnk⟩
      exact absurd (h k hk) hnk
    · intro r hr
      rw [Report.make, if_pos h] at hr
      cases hr
      exact ⟨h, rfl⟩
  · refine ⟨⟨?_, ?_⟩, ?_⟩
    · intro _
      push_neg at h
      exact h
    · intro _
      exact ⟨_, by rw [Report.make, if_neg h]⟩
    · intro r hr
      rw [Report.make, if_neg h] at hr
      cases hr

/-- A concrete item detail without an icon. -/
def dCoinLess : ItemDetail := ⟨"A", "itemA", 10, none, none, none⟩

/-- Witness for C8 at a concrete successful construction. -/
theorem C8_report_construction_witness :
    Report.make ⟨"t0"⟩ ⟨"t1"⟩ (Inventory.ofDict [("A", 3)]) Inventory.emptyInv
        [("A", dCoinLess)]
      = Except.ok ⟨⟨"t0"⟩, ⟨"t1"⟩, Inventory.ofDict [("A", 3)],
          Inventory.emptyInv, [("A", dCoinLess)]⟩
    ∧ ((⟨⟨"t0"⟩, ⟨"t1"⟩, Inventory.ofDict [("A", 3)], Inventory.emptyInv,
          [("A", dCoinLess)]⟩ : Report).integrity
        ∧ (⟨⟨"t0"⟩, ⟨"t1"⟩, Inventory.ofDict [("A", 3)], Inventory.emptyInv,
            [("A", dCoinLess)]⟩ : Report)
          = ⟨⟨"t0"⟩, ⟨"t1"⟩, Inventory.ofDict [("A", 3)], Inventory.emptyInv,
              [("A", dCoinLess)]⟩) :=
  ⟨by decide,
   (C8_report_construction ⟨"t0"⟩ ⟨"t1"⟩ (Inventory.ofDict [("A", 3)])
      Inventory.emptyInv [("A", dCoinLess)]).2
     ⟨⟨"t0"⟩, ⟨"t1"⟩, Inventory.ofDict [("A", 3)], Inventory.emptyInv,
       [("A", dCoinLess)]⟩ (by decide)⟩

/-- Round-trip of a well-formed inventory: nothing is stripped. -/
theorem inventory_roundtrip {inv : Inventory} (h : inv.wf) :
    Inventory.from_json inv.to_json = inv := by
  obtain ⟨content⟩ := inv
  unfold Inventory.from_json Inventory.to_json Inventory.ofDict
  congr 1
  apply List.filter_eq_self.mpr
  intro p hp
  exact bne_iff_ne.mpr (h.2 p hp)

/-- Detail round-trip clears the icon path and keeps every other field. -/
theorem detail_roundtrip (d : ItemDetail) :
    ItemDetail.from_json d.to_json = d.clearIcon := rfl

/-- Keys of a value-mapped association list. -/
theorem map_fst_map_value {α β γ : Type} (l : List (α × β)) (g : α × β → γ) :
    ((l.map (fun p => (p.1, g p))).map Prod.fst) = l.map Prod.fst := by
  rw [List.map_map]
  rfl

/-- C5 (amended): deserialize after serialize is the identity on
well-formed Inventories and Snapshots; on a well-formed Report it yields
the report with the icon path of every item detail cleared — hence the
identity exactly on reports whose details carry no icon path, while a
report whose details carry an icon path does not round-trip to itself. -/
theorem C5_roundtrip :
    (∀ inv : Inventory, inv.wf → Inventory.from_json inv.to_json = inv)
    ∧ (∀ s : Snapshot, s.inventory.wf → s.wallet.wf →
        Snapshot.from_json s.to_json = s)
    ∧ (∀ r : Report, r.inv_diff.wf → r.wallet_diff.wf → r.integrity →
        Report.from_json r.to_json = Except.ok r.stripIcons)
    ∧ (∀ r : Report, r.inv_diff.wf → r.wallet_diff.wf → r.integrity →
        (∀ p ∈ r.item_details, p.2.icon_path = none) →
        Report.from_json r.to_json = Except.ok r) := by
  have hinv : ∀ inv : Inventory, inv.wf → Inventory.from_json inv.to_json = inv :=
    fun _ h => inventory_roundtrip h
  have hrep : ∀ r : Report, r.inv_diff.wf → r.wallet_diff.wf → r.integrity →
      Report.from_json r.to_json = Except.ok r.stripIcons := by
    intro r h1 h2 h3
    obtain ⟨sd, ed, inv, w, det⟩ := r
    unfold Report.from_json Report.to_json
    simp only [List.map_map]
    have hdet : (det.map ((fun p => (p.1, ItemDetail.from_json p.2))
          ∘ (fun p => (p.1, p.2.to_json))))
        = det.map (fun p => (p.1, p.2.clearIcon)) := by
      apply List.map_congr_left
      intro p _
      show (p.1, ItemDetail.from_json p.2.to_json) = _
      rw [detail_roundtrip]
    rw [hdet, hinv _ h1, hinv _ h2]
    show Report.make sd ed inv w _ = _
    rw [Report.make, if_pos ?_]
    · rfl
    · intro k hk
      rw [map_fst_map_value det (fun p => p.2.clearIcon)]
      exact h3 k hk
  refine ⟨hinv, ?_, hrep, ?_⟩
  · intro s h1 h2
    obtain ⟨k, inv, w, dt, n⟩ := s
    unfold Snapshot.from_json Snapshot.to_json
    rw [hinv _ h1, hinv _ h2]
    rfl
  · intro r h1 h2 h3 h4
    rw [hrep r h1 h2 h3]
    congr 1
    obtain ⟨sd, ed, inv, w, det⟩ := r
    unfold Report.stripIcons
    simp only
    congr 1
    have hmap : det.map (fun p => (p.1, p.2.clearIcon))
        = det.map (fun p => p) := by
      apply List.map_congr_left
      intro p hp
      have hi := h4 p hp
      obtain ⟨a, b⟩ := p
      obtain ⟨i, nm, v, hb, ls, ic⟩ := b
      simp only at hi
      rw [ItemDetail.clearIcon, hi]
    rw [hmap, List.map_id']

/-- A concrete item detail carrying a locally cached icon path. -/
def dIcon : ItemDetail := ⟨"7", "Widget", 10, some 100, some 120, some "cache/7.png"⟩

/-- A concrete well-formed report whose single item detail carries an
icon path. -/
def rIcon : Report :=
  ⟨⟨"2024-01-01T00:00:00+00:00"⟩, ⟨"2024-01-02T00:00:00+00:00"⟩,
   Inventory.ofDict [("7", 2)], Inventory.ofDict [("1", 500)], [("7", dIcon)]⟩

/-- Counterexample to C5: a report whose item detail carries an icon
path does not survive the round-trip; deserialization yields the report
with the icon path cleared instead. -/
theorem C5_counterexample :
    Report.from_json rIcon.to_json ≠ Except.ok rIcon
    ∧ Report.from_json rIcon.to_json = Except.ok rIcon.stripIcons
    ∧ rIcon.stripIcons ≠ rIcon := by
  exact ⟨by decide, by decide, by decide⟩

/-- Witness for C5 at concrete inputs: the round-trip of a well-formed
report with an icon path produces the icon-stripped report. -/
theorem C5_roundtrip_witness :
    (rIcon.inv_diff.wf ∧ rIcon.wallet_diff.wf ∧ rIcon.integrity)
    ∧ Report.from_json rIcon.to_json = Except.ok rIcon.stripIcons :=
  ⟨⟨by decide, by decide, by decide⟩,
   C5_roundtrip.2.2.1 rIcon (by decide) (by decide) (by decide)⟩

/-- A second concrete item detail, valued through its vendor price. -/
def dVendor20 : ItemDetail := ⟨"B", "itemB", 20, none, none, none⟩

/-- A concrete report matching the end-to-end example of the spec:
delta `{A: 3, B: 2}`, coin delta `500`, unit values `10` and `20`. -/
def rGains : Report :=
  ⟨⟨"t0"⟩, ⟨"t1"⟩, Inventory.ofDict [("A", 3), ("B", 2)],
   Inventory.ofDict [("1", 500)], [("A", dCoinLess), ("B", dVendor20)]⟩

/-- The detail table realizing the lookups of `rGains`. -/
def dvGains : ItemID → ItemDetail :=
  fun k => if k = "A" then dCoinLess else dVendor20

/-- Witness for C2 at the concrete report `rGains`. -/
theorem C2_report_gains_witness :
    (∀ k ∈ rGains.inv_diff.keysList,
        rGains.item_details.lookup k = some (dvGains k))
    ∧ (rGains.item_gains
        = (rGains.inv_diff.content.map
            (fun p => p.2 * ((dvGains p.1).value : Int))).sum
      ∧ rGains.coins = (rGains.wallet_diff.content.lookup COIN_ID).getD 0
      ∧ rGains.total_gains = rGains.coins + rGains.item_gains) :=
  ⟨by decide, C2_report_gains rGains dvGains (by decide)⟩

end GW2
